import Mathlib

/-!
Verification of the prompt-quality analysis engine: the heuristic issue
detectors and scoring function (src/analyzers/rule_based.py together with
src/utils/patterns.py), the issue-fusion/deduplication algorithm
(src/analyzers/hybrid_analyzer.py), and the request-boundary validation
(src/models/schemas.py and src/server.py).

Python regular-expression searches are embedded as direct character-level
scanning functions: each regex of PatternMatcher is transcribed into a
matcher that attempts the pattern at one position (given the previous
character, for word boundaries) and a driver that models re.finditer /
re.search.  re.IGNORECASE is modelled by matching on the lowercased text
(ASCII case folding, which covers the ASCII-only patterns involved), and
the character classes \w, \s, \d are modelled by their ASCII parts.
-/

namespace PromptQuality

/-- models/enums.py Severity. -/
inductive Severity where
  | critical
  | medium
  | low
deriving DecidableEq

/-- models/enums.py IssueType. -/
inductive IssueType where
  | vague
  | missing_context
  | inefficient
  | ambiguous
  | missing_role
  | missing_format
  | too_short
  | too_long
deriving DecidableEq

/-- models/enums.py Impact. -/
inductive Impact where
  | high
  | medium
  | low
deriving DecidableEq

/-- models/schemas.py PromptIssue.  The Python field `end` is called `endPos`
here because `end` is a Lean keyword; `start` and `end` are pydantic-validated
to be nonnegative, hence `Nat`. -/
structure PromptIssue where
  id : String
  start : Nat
  endPos : Nat
  type : IssueType
  severity : Severity
  message : String
  suggestion : String
  impact : Option Impact
deriving DecidableEq

/-- Characters treated as whitespace by Python `str.split` / `str.strip` and by
the regex class `\s` (ASCII part; the prompts in scope use no exotic Unicode
whitespace). -/
def pyIsSpace (c : Char) : Bool :=
  c = ' ' || c = '\t' || c = '\n' || c = '\x0d' || c = '\x0b' || c = '\x0c'

/-- Regex class `\w` (ASCII part): letters, digits, underscore. -/
def isWordChar (c : Char) : Bool :=
  c.isAlphanum || c = '_'

/-- Python `text.lower()` / re.IGNORECASE, as ASCII case folding on the
character list of a string. -/
def lowerChars (s : String) : List Char :=
  s.data.map Char.toLower

/-- Python `text.lower()` returning a string. -/
def pyLower (s : String) : String :=
  String.mk (lowerChars s)

/-- Python `len(text.split())` (PatternMatcher.count_words): number of maximal
whitespace-free runs. -/
def count_words (s : String) : Nat :=
  (s.data.foldl
    (fun st c =>
      if pyIsSpace c then (st.1, false)
      else if st.2 then st else (st.1 + 1, true))
    ((0 : Nat), false)).1

/-- Python slice `s[a:b]` by code points. -/
def pySlice (s : String) (a b : Nat) : String :=
  String.mk ((s.data.drop a).take (b - a))

/-- Match a literal character sequence at the head of the input, returning the
remaining input on success. -/
def matchLit : List Char → List Char → Option (List Char)
  | [], cs => some cs
  | _ :: _, [] => none
  | p :: ps, c :: cs => if c = p then matchLit ps cs else none

/-- Match one or more characters satisfying `p` (greedy maximal run, which is
exact for the patterns in scope because what follows is always disjoint from
`p`), returning the rest. -/
def chomp1 (p : Char → Bool) (cs : List Char) : Option (List Char) :=
  match cs with
  | [] => none
  | c :: rest => if p c then some (rest.dropWhile p) else none

/-- First alternative of a regex group whose literal matches a prefix; exact
for the groups in scope, whose alternatives are pairwise prefix-independent. -/
def firstLit : List (List Char) → List Char → Option (List Char)
  | [], _ => none
  | a :: as, cs =>
    match matchLit a cs with
    | some r => some r
    | none => firstLit as cs

/-- Convert string literals of a regex alternation to character lists. -/
def lits (l : List String) : List (List Char) :=
  l.map String.data

/-- Word boundary `\b` before a word character: start of input or a preceding
non-word character. -/
def boundaryBefore : Option Char → Bool
  | none => true
  | some c => !isWordChar c

/-- Word boundary `\b` after a word character: end of input or a following
non-word character. -/
def boundaryAfter (cs : List Char) : Bool :=
  match cs with
  | [] => true
  | c :: _ => !isWordChar c

/-- Python `needle in hay` on strings, as a substring test on character
lists. -/
def isSubstr (needle hay : List Char) : Bool :=
  hay.tails.any (fun t => (matchLit needle t).isSome)

/-- Model of `re.finditer`: scan left to right, emitting the non-overlapping
matches of `tryP` as (start, end) offset pairs.  `tryP prev cs` attempts a
match at the current position given the previous character and returns the
rest of the input after the match.  The fuel argument (initialised to the
input length, which every step strictly consumes) makes the recursion
structural. -/
def scanAllAux (tryP : Option Char → List Char → Option (List Char)) :
    Nat → Option Char → Nat → List Char → List (Nat × Nat)
  | 0, _, _, _ => []
  | _, _, _, [] => []
  | fuel + 1, prev, pos, c :: rest =>
    match tryP prev (c :: rest) with
    | some r =>
      let len := (c :: rest).length - r.length
      if 0 < len then
        (pos, pos + len) ::
          scanAllAux tryP fuel (((c :: rest).take len).getLast?) (pos + len) ((c :: rest).drop len)
      else
        scanAllAux tryP fuel (some c) (pos + 1) rest
    | none => scanAllAux tryP fuel (some c) (pos + 1) rest

/-- All matches of a position matcher over an input, re.finditer style. -/
def scanAll (tryP : Option Char → List Char → Option (List Char))
    (cs : List Char) : List (Nat × Nat) :=
  scanAllAux tryP cs.length none 0 cs

/-- Model of `re.search` used by PatternMatcher.contains_pattern: does the
position matcher succeed anywhere? -/
def containsPat (tryP : Option Char → List Char → Option (List Char))
    (cs : List Char) : Bool :=
  !(scanAll tryP cs).isEmpty

/-- Lookahead body of VAGUE_PATTERNS[0]: regex `\s+(specifically|by|with|for|the|this)`. -/
def specificityAhead (cs : List Char) : Bool :=
  match chomp1 pyIsSpace cs with
  | some r => (firstLit (lits ["specifically", "by", "with", "for", "the", "this"]) r).isSome
  | none => false

/-- utils/patterns.py VAGUE_PATTERNS[0]:
regex `\b(analyze|check|look at|review|examine)\b(?!\s+(specifically|by|with|for|the|this))`. -/
def tryVague0 (prev : Option Char) (cs : List Char) : Option (List Char) :=
  if boundaryBefore prev then
    match firstLit (lits ["analyze", "check", "look at", "review", "examine"]) cs with
    | some r => if boundaryAfter r && !specificityAhead r then some r else none
    | none => none
  else none

/-- Lookahead body of VAGUE_PATTERNS[1]: regex `\s+on`. -/
def onAhead (cs : List Char) : Bool :=
  match chomp1 pyIsSpace cs with
  | some r => (matchLit "on".data r).isSome
  | none => false

/-- Tail of VAGUE_PATTERNS[1]: regex `insights?\b(?!\s+on)`.  The optional `s`
is committed greedily, which is exact: when an `s` follows, the short branch
fails its word boundary anyway. -/
def insightsTail (cs : List Char) : Option (List Char) :=
  match matchLit "insight".data cs with
  | none => none
  | some r =>
    let r2 := match r with
      | 's' :: t => t
      | _ => r
    if boundaryAfter r2 && !onAhead r2 then some r2 else none

/-- utils/patterns.py VAGUE_PATTERNS[1]:
regex `\b(give|provide|show)\s+(me\s+)?insights?\b(?!\s+on)`.  The optional
`me\s+` group is committed greedily, which is exact: when it matches, the
skipped branch would have to match `insight` against `me...` and fails. -/
def tryVague1 (prev : Option Char) (cs : List Char) : Option (List Char) :=
  if boundaryBefore prev then
    match firstLit (lits ["give", "provide", "show"]) cs with
    | none => none
    | some r1 =>
      match chomp1 pyIsSpace r1 with
      | none => none
      | some r2 =>
        match matchLit "me".data r2 with
        | some r3 =>
          match chomp1 pyIsSpace r3 with
          | some r4 => insightsTail r4
          | none => insightsTail r2
        | none => insightsTail r2
  else none

/-- utils/patterns.py VAGUE_PATTERNS[2]: regex `\b(do|make|create)\s+something\b`. -/
def tryVague2 (prev : Option Char) (cs : List Char) : Option (List Char) :=
  if boundaryBefore prev then
    match firstLit (lits ["do", "make", "create"]) cs with
    | none => none
    | some r1 =>
      match chomp1 pyIsSpace r1 with
      | none => none
      | some r2 =>
        match matchLit "something".data r2 with
        | none => none
        | some r3 => if boundaryAfter r3 then some r3 else none
  else none

/-- utils/patterns.py VAGUE_PATTERNS[3]: regex `\btell me about\b`. -/
def tryVague3 (prev : Option Char) (cs : List Char) : Option (List Char) :=
  if boundaryBefore prev then
    match matchLit "tell me about".data cs with
    | some r => if boundaryAfter r then some r else none
    | none => none
  else none

/-- PatternMatcher.find_matches(text, VAGUE_PATTERNS): per-pattern finditer
results concatenated in pattern order, as (start, end) offsets. -/
def findVagueMatches (text : String) : List (Nat × Nat) :=
  let low := lowerChars text
  scanAll tryVague0 low ++ scanAll tryVague1 low ++
    scanAll tryVague2 low ++ scanAll tryVague3 low

/-- Regex fragment `(a|an)\s+\w+` of ROLE_PATTERNS, returning the rest of the
input after the word run.  The alternatives are committed by inspecting the
character after `a`: when it is `n` the one-letter branch cannot match (it
needs whitespace there), and otherwise the two-letter branch cannot. -/
def aAnWord (cs : List Char) : Option (List Char) :=
  match cs with
  | 'a' :: rest =>
    match rest with
    | 'n' :: rest2 =>
      match chomp1 pyIsSpace rest2 with
      | some r => chomp1 isWordChar r
      | none => none
    | _ =>
      match chomp1 pyIsSpace rest with
      | some r => chomp1 isWordChar r
      | none => none
  | _ => none

/-- utils/patterns.py ROLE_PATTERNS[0]: regex `\byou are\s+(a|an)\s+\w+`. -/
def tryRole0 (prev : Option Char) (cs : List Char) : Option (List Char) :=
  if boundaryBefore prev then
    match matchLit "you are".data cs with
    | none => none
    | some r1 =>
      match chomp1 pyIsSpace r1 with
      | none => none
      | some r2 => aAnWord r2
  else none

/-- utils/patterns.py ROLE_PATTERNS[1]: regex `\bact as\s+(a|an)\s+\w+`. -/
def tryRole1 (prev : Option Char) (cs : List Char) : Option (List Char) :=
  if boundaryBefore prev then
    match matchLit "act as".data cs with
    | none => none
    | some r1 =>
      match chomp1 pyIsSpace r1 with
      | none => none
      | some r2 => aAnWord r2
  else none

/-- utils/patterns.py ROLE_PATTERNS[2]: regex `\bas\s+(a|an)\s+\w+\s+(expert|specialist)`. -/
def tryRole2 (prev : Option Char) (cs : List Char) : Option (List Char) :=
  if boundaryBefore prev then
    match matchLit "as".data cs with
    | none => none
    | some r1 =>
      match chomp1 pyIsSpace r1 with
      | none => none
      | some r2 =>
        match aAnWord r2 with
        | none => none
        | some r3 =>
          match chomp1 pyIsSpace r3 with
          | none => none
          | some r4 => firstLit (lits ["expert", "specialist"]) r4
  else none

/-- PatternMatcher.contains_pattern(text, ROLE_PATTERNS). -/
def contains_role_pattern (text : String) : Bool :=
  let low := lowerChars text
  containsPat tryRole0 low || containsPat tryRole1 low || containsPat tryRole2 low

/-- FORMAT_PATTERNS[0] and [1]: regex `\b<word>\s+(as|the|your)\b` for
`format` and `structure`. -/
def tryWordAsTheYour (word : String) (prev : Option Char) (cs : List Char) :
    Option (List Char) :=
  if boundaryBefore prev then
    match matchLit word.data cs with
    | none => none
    | some r1 =>
      match chomp1 pyIsSpace r1 with
      | none => none
      | some r2 =>
        match firstLit (lits ["as", "the", "your"]) r2 with
        | none => none
        | some r3 => if boundaryAfter r3 then some r3 else none
  else none

/-- FORMAT_PATTERNS[2]: regex `\bbullet\s+points?\b` (optional `s` committed
greedily, exact because of the trailing word boundary). -/
def tryBulletPoints (prev : Option Char) (cs : List Char) : Option (List Char) :=
  if boundaryBefore prev then
    match matchLit "bullet".data cs with
    | none => none
    | some r1 =>
      match chomp1 pyIsSpace r1 with
      | none => none
      | some r2 =>
        match matchLit "point".data r2 with
        | none => none
        | some r3 =>
          let r4 := match r3 with
            | 's' :: t => t
            | _ => r3
          if boundaryAfter r4 then some r4 else none
  else none

/-- Single-word patterns `\btable\b`, `\bjson\b`, `\bmarkdown\b`. -/
def tryWordOnly (word : String) (prev : Option Char) (cs : List Char) :
    Option (List Char) :=
  if boundaryBefore prev then
    match matchLit word.data cs with
    | some r => if boundaryAfter r then some r else none
    | none => none
  else none

/-- Two-word patterns `\bnumbered\s+list\b` and `\bresponse\s+format\b`. -/
def tryTwoWords (w1 w2 : String) (prev : Option Char) (cs : List Char) :
    Option (List Char) :=
  if boundaryBefore prev then
    match matchLit w1.data cs with
    | none => none
    | some r1 =>
      match chomp1 pyIsSpace r1 with
      | none => none
      | some r2 =>
        match matchLit w2.data r2 with
        | some r3 => if boundaryAfter r3 then some r3 else none
        | none => none
  else none

/-- OUTPUT_PATTERNS[0]: regex `\boutput\s+(format|structure)\b`. -/
def tryOutputFS (prev : Option Char) (cs : List Char) : Option (List Char) :=
  if boundaryBefore prev then
    match matchLit "output".data cs with
    | none => none
    | some r1 =>
      match chomp1 pyIsSpace r1 with
      | none => none
      | some r2 =>
        match firstLit (lits ["format", "structure"]) r2 with
        | some r3 => if boundaryAfter r3 then some r3 else none
        | none => none
  else none

/-- OUTPUT_PATTERNS[1]: regex `\bprovide\s+(in|as)\s+\w+\s+format\b`. -/
def tryProvideFormat (prev : Option Char) (cs : List Char) : Option (List Char) :=
  if boundaryBefore prev then
    match matchLit "provide".data cs with
    | none => none
    | some r1 =>
      match chomp1 pyIsSpace r1 with
      | none => none
      | some r2 =>
        match firstLit (lits ["in", "as"]) r2 with
        | none => none
        | some r3 =>
          match chomp1 pyIsSpace r3 with
          | none => none
          | some r4 =>
            match chomp1 isWordChar r4 with
            | none => none
            | some r5 =>
              match chomp1 pyIsSpace r5 with
              | none => none
              | some r6 =>
                match matchLit "format".data r6 with
                | some r7 => if boundaryAfter r7 then some r7 else none
                | none => none
  else none

/-- PatternMatcher.contains_pattern(text, FORMAT_PATTERNS + OUTPUT_PATTERNS). -/
def contains_format_or_output_pattern (text : String) : Bool :=
  let low := lowerChars text
  containsPat (tryWordAsTheYour "format") low ||
    containsPat (tryWordAsTheYour "structure") low ||
    containsPat tryBulletPoints low ||
    containsPat (tryTwoWords "numbered" "list") low ||
    containsPat (tryWordOnly "table") low ||
    containsPat (tryWordOnly "json") low ||
    containsPat (tryWordOnly "markdown") low ||
    containsPat tryOutputFS low ||
    containsPat tryProvideFormat low ||
    containsPat (tryTwoWords "response" "format") low

/-- First alternative of has_specific_instructions: regex `\d+[\.)]\s+\w+`
(greedy digit run is exact since the following class has no digits). -/
def tryNumberedMark (_prev : Option Char) (cs : List Char) : Option (List Char) :=
  match chomp1 Char.isDigit cs with
  | none => none
  | some r1 =>
    match r1 with
    | c :: r2 =>
      if c = '.' || c = ')' then
        match chomp1 pyIsSpace r2 with
        | none => none
        | some r3 => chomp1 isWordChar r3
      else none
    | [] => none

/-- Character class of the second alternative of has_specific_instructions.
The source file literally contains the bytes of the mojibake sequence for a
bullet, so the class is `[-â€¢*]` over these five characters. -/
def bulletChars : List Char :=
  ['-', 'â', '€', '¢', '*']

/-- Second alternative of has_specific_instructions: regex `[-â€¢*]\s+\w+`. -/
def tryBulletMark (_prev : Option Char) (cs : List Char) : Option (List Char) :=
  match cs with
  | c :: r1 =>
    if bulletChars.contains c then
      match chomp1 pyIsSpace r1 with
      | none => none
      | some r2 => chomp1 isWordChar r2
    else none
  | [] => none

/-- PatternMatcher.has_specific_instructions (re.search on the raw text,
no IGNORECASE; the patterns are case-free). -/
def has_specific_instructions (text : String) : Bool :=
  containsPat tryNumberedMark text.data || containsPat tryBulletMark text.data

/-- Specificity markers looked for in the 50 characters after a vague match
(rule_based.py _check_vague_instructions). -/
def specificityWords : List String :=
  ["specifically", "focusing", "particularly", "especially", "by analyzing", "with emphasis"]

/-- RuleBasedAnalyzer._check_vague_instructions.  The random uuid suffix of an
issue id is abstracted away (only the id prefix, "issue-" versus "llm-", is
ever inspected downstream, by the fusion tie-break). -/
def check_vague_instructions (text : String) : List PromptIssue :=
  (findVagueMatches text).filterMap (fun se =>
    let matched := pySlice text se.1 se.2
    let contextAfter := pyLower (pySlice text se.2 (se.2 + 50))
    if specificityWords.any (fun w => isSubstr w.data contextAfter.data) then none
    else some {
      id := "issue-"
      start := se.1
      endPos := se.2
      type := .vague
      severity := .medium
      message := "The instruction '" ++ matched ++ "' is vague. Add specific details about what to "
        ++ pyLower matched ++ "."
      suggestion := matched ++ " specifically focusing on"
      impact := some .high })

/-- RuleBasedAnalyzer._check_role_definition. -/
def check_role_definition (text : String) : List PromptIssue :=
  if contains_role_pattern text then []
  else [{
    id := "issue-"
    start := 0
    endPos := 0
    type := .missing_role
    severity := .medium
    message := "Missing role definition. Adding a role helps the AI understand the expected expertise level."
    suggestion := "You are an expert analyst. " ++ text
    impact := some .medium }]

/-- RuleBasedAnalyzer._check_output_format. -/
def check_output_format (text : String) : List PromptIssue :=
  if !contains_format_or_output_pattern text && count_words text > 10 then
    [{
      id := "issue-"
      start := text.length
      endPos := text.length
      type := .missing_format
      severity := .low
      message := "No output format specified. Defining the format helps ensure consistent results."
      suggestion := text ++ " Format the response as bullet points."
      impact := some .medium }]
  else []

/-- RuleBasedAnalyzer._check_length. -/
def check_length (text : String) : List PromptIssue :=
  let wc := count_words text
  if wc < 5 then
    [{
      id := "issue-"
      start := 0
      endPos := text.length
      type := .too_short
      severity := .critical
      message := "Prompt is too short (" ++ toString wc ++ " words). Add more specific instructions and context."
      suggestion := text ++ " Please provide detailed analysis including key metrics, trends, and actionable insights."
      impact := some .high }]
  else if wc > 500 then
    [{
      id := "issue-"
      start := 0
      endPos := text.length
      type := .too_long
      severity := .low
      message := "Prompt is very long (" ++ toString wc ++ " words). Consider breaking it into smaller, focused prompts."
      suggestion := "Consider splitting this into multiple focused prompts for better results."
      impact := some .low }]
  else []

/-- RuleBasedAnalyzer._check_specificity. -/
def check_specificity (text : String) : List PromptIssue :=
  if count_words text > 15 && !has_specific_instructions text then
    [{
      id := "issue-"
      start := 0
      endPos := text.length
      type := .inefficient
      severity := .low
      message := "Consider structuring your requirements with numbered points for clarity."
      suggestion := "Structure your prompt with numbered requirements:\n1. First requirement\n2. Second requirement\n3. Third requirement"
      impact := some .medium }]
  else []

/-- Modelled from the spec: a token produced by the external linguistic
tokenizer capability (spaCy, which is not part of this repository), exposing
per token its text, its character offset in the prompt, and its coarse
grammatical category. -/
structure Token where
  text : String
  idx : Nat
  pos : String
deriving DecidableEq

/-- The pronoun list of _check_ambiguous_pronouns. -/
def ambiguousPronouns : List String :=
  ["it", "this", "that", "they", "them"]

/-- RuleBasedAnalyzer._check_ambiguous_pronouns, parameterised by the external
tokenizer.  A tokenizer result of `none` models `self.nlp(text)` raising: the
surrounding try/except swallows the error and the check yields no issue. -/
def check_ambiguous_pronouns (tokenize : String → Option (List Token))
    (text : String) : List PromptIssue :=
  match tokenize text with
  | none => []
  | some doc =>
    doc.enum.filterMap (fun it =>
      if ambiguousPronouns.contains (pyLower it.2.text) ∧ it.2.pos = "PRON" then
        if it.1 < 2 then
          some {
            id := "issue-"
            start := it.2.idx
            endPos := it.2.idx + it.2.text.length
            type := .ambiguous
            severity := .low
            message := "The pronoun '" ++ it.2.text ++ "' may be ambiguous. Consider being more explicit."
            suggestion := "[specify what you're referring to]"
            impact := some .low }
        else none
      else none)

/-- RuleBasedAnalyzer.analyze: the six checks run in order and their issue
lists are concatenated. -/
def analyze (tokenize : String → Option (List Token)) (text : String) :
    List PromptIssue :=
  check_vague_instructions text ++ check_role_definition text ++
    check_output_format text ++ check_length text ++ check_specificity text ++
    check_ambiguous_pronouns tokenize text

/-- Whitespace-delimited words of a prompt with their character offsets
(fuel-structured recursion; fuel is initialised to the input length, which
every step strictly consumes). -/
def wsTokensAux : Nat → Nat → List Char → List (Nat × String)
  | 0, _, _ => []
  | _, _, [] => []
  | fuel + 1, pos, c :: rest =>
    if pyIsSpace c then wsTokensAux fuel (pos + 1) rest
    else
      let w := rest.takeWhile (fun d => !pyIsSpace d)
      (pos, String.mk (c :: w)) :: wsTokensAux fuel (pos + 1 + w.length) (rest.drop w.length)

/-- Modelled from the spec: the external tokenizer capability (the spaCy
pipeline, not part of this repository).  Words are whitespace-delimited; a
token is tagged with the coarse category "PRON" exactly when it is one of the
closed-class pronouns that the ambiguous-reference check names, and with a
non-pronoun tag otherwise. -/
def specTokenizer (text : String) : Option (List Token) :=
  some ((wsTokensAux text.data.length 0 text.data).map (fun pw =>
    { text := pw.2
      idx := pw.1
      pos := if ambiguousPronouns.contains (pyLower pw.2) then "PRON" else "X" }))

/-- Points deducted per issue by severity
(RuleBasedAnalyzer.calculate_quality_score: critical 20, medium 10, else 5). -/
def severityDeduction : Severity → Int
  | .critical => 20
  | .medium => 10
  | .low => 5

/-- RuleBasedAnalyzer.calculate_quality_score. -/
def calculate_quality_score (text : String) (issues : List PromptIssue) : Int :=
  let base0 : Int := issues.foldl (fun s i => s - severityDeduction i.severity) 100
  let base1 := if count_words text ≥ 20 then min 100 (base0 + 5) else base0
  let base2 := if has_specific_instructions text then min 100 (base1 + 5) else base1
  let base3 := if contains_role_pattern text then min 100 (base2 + 5) else base2
  max 0 (min 100 base3)

/-- Position bucket of an issue in HybridAnalyzer._deduplicate_issues:
`(issue.start // 5 * 5, issue.end // 5 * 5)`. -/
def bucketKey (i : PromptIssue) : Nat × Nat :=
  (i.start / 5 * 5, i.endPos / 5 * 5)

/-- One step of building the position groups: Python's insertion-ordered dict
`position_groups`, as an association list (an existing key keeps its place and
appends; a new key is appended at the end). -/
def addToGroups (gs : List ((Nat × Nat) × List PromptIssue)) (i : PromptIssue) :
    List ((Nat × Nat) × List PromptIssue) :=
  if gs.any (fun kv => decide (kv.1 = bucketKey i)) then
    gs.map (fun kv => if kv.1 = bucketKey i then (kv.1, kv.2 ++ [i]) else kv)
  else gs ++ [(bucketKey i, [i])]

/-- severity_order of _deduplicate_issues: critical 3, medium 2, low 1. -/
def severityRank : Severity → Nat
  | .critical => 3
  | .medium => 2
  | .low => 1

/-- Python `id.startswith("llm-")`, as a character-level prefix test. -/
def isLlmId (id : String) : Bool :=
  (matchLit "llm-".data id.data).isSome

/-- The sort key of the `max` call in _deduplicate_issues:
`(severity_order.get(severity, 0), 1 if id.startswith("llm-") else 0)`. -/
def dedupRank (i : PromptIssue) : Nat × Nat :=
  (severityRank i.severity, if isLlmId i.id then 1 else 0)

/-- Python tuple comparison `a > b` on pairs of naturals (lexicographic). -/
def pairGt (a b : Nat × Nat) : Prop :=
  b.1 < a.1 ∨ (a.1 = b.1 ∧ b.2 < a.2)

instance : DecidableRel pairGt := fun a b =>
  inferInstanceAs (Decidable (b.1 < a.1 ∨ (a.1 = b.1 ∧ b.2 < a.2)))

/-- Winner of one position group: Python `max(group, key=...)`, which keeps
the first element and replaces it only on a strictly greater key, so ties
retain the first-seen issue.  The singleton branch mirrors the `len(group)==1`
branch of the source. -/
def pickBest : List PromptIssue → Option PromptIssue
  | [] => none
  | [i] => some i
  | h :: t =>
    some (t.foldl (fun best x => if pairGt (dedupRank x) (dedupRank best) then x else best) h)

/-- The final ordering of _deduplicate_issues: `deduplicated.sort(key=lambda
x: x.start)`, a stable sort ascending by start. -/
def byStart (a b : PromptIssue) : Prop :=
  a.start ≤ b.start

instance : DecidableRel byStart := fun a b => Nat.decLe a.start b.start

instance : IsTotal PromptIssue byStart := ⟨fun a b => Nat.le_total a.start b.start⟩

instance : IsTrans PromptIssue byStart := ⟨fun _ _ _ h h2 => Nat.le_trans h h2⟩

/-- HybridAnalyzer._deduplicate_issues: group by position bucket, keep the
best issue of each group, sort ascending by start.  Python's stable list.sort
is modelled by the (stable) insertion sort. -/
def dedupIssues (issues : List PromptIssue) : List PromptIssue :=
  if issues.isEmpty then []
  else
    List.insertionSort byStart
      ((issues.foldl addToGroups []).filterMap (fun kv => pickBest kv.2))

/-- The issue-fusion engine: HybridAnalyzer.analyze with deep analysis merges
`rule_issues + llm_issues` and deduplicates the concatenation. -/
def fuse (ruleIssues llmIssues : List PromptIssue) : List PromptIssue :=
  dedupIssues (ruleIssues ++ llmIssues)

/-- Python str.strip() (ASCII-whitespace model): drop leading and trailing
whitespace. -/
def pyStrip (s : String) : String :=
  String.mk (((s.data.dropWhile pyIsSpace).reverse.dropWhile pyIsSpace).reverse)

/-- config/settings.py default `min_prompt_length`. -/
def min_prompt_length : Nat := 5

/-- config/settings.py default `max_prompt_length`. -/
def max_prompt_length : Nat := 5000

/-- models/schemas.py AnalysisRequest: the pydantic length constraints
(min_length=1, max_length=5000) apply to the raw text, then the
text_must_not_be_empty validator rejects whitespace-only text and returns the
stripped text.  `none` models a validation error. -/
def analysisRequestText (text : String) : Option String :=
  if text.length < 1 then none
  else if text.length > 5000 then none
  else if (pyStrip text).length = 0 then none
  else some (pyStrip text)

/-- server.py analyze_prompt: on top of AnalysisRequest validation, the
endpoint rejects a validated (stripped) text longer than
settings.max_prompt_length or shorter than settings.min_prompt_length. -/
def serverAcceptText (text : String) : Option String :=
  match analysisRequestText text with
  | none => none
  | some t =>
    if t.length > max_prompt_length then none
    else if t.length < min_prompt_length then none
    else some t

/-! ## Theorems -/

/-- The deduction loop of calculate_quality_score in closed form, via the
severity counts of the issue list. -/
theorem foldl_deduction (l : List PromptIssue) (c : Int) :
    l.foldl (fun s i => s - severityDeduction i.severity) c
      = c - 20 * (l.countP (fun i => decide (i.severity = Severity.critical)) : Int)
          - 10 * (l.countP (fun i => decide (i.severity = Severity.medium)) : Int)
          - 5 * (l.countP (fun i => decide (i.severity ≠ Severity.critical ∧ i.severity ≠ Severity.medium)) : Int) := by
  induction l generalizing c with
  | nil => simp
  | cons i t ih =>
    simp only [List.foldl_cons, List.countP_cons, ih]
    cases h : i.severity <;> simp [severityDeduction, h] <;> ring

/-- Scoring function phrased from the claim: start at 100; deduct 20 per
critical issue, 10 per medium issue and 5 per issue of any other severity,
unbounded below; then add the three +5 bonuses (word count at least 20,
enumerated structure, role pattern), capping at 100 after each; finally clamp
to [0, 100]. -/
def scoreSpec (text : String) (issues : List PromptIssue) : Int :=
  let afterDeductions : Int :=
    100 - 20 * (issues.countP (fun i => decide (i.severity = Severity.critical)) : Int)
        - 10 * (issues.countP (fun i => decide (i.severity = Severity.medium)) : Int)
        - 5 * (issues.countP (fun i => decide (i.severity ≠ Severity.critical ∧ i.severity ≠ Severity.medium)) : Int)
  let b1 := if count_words text ≥ 20 then min 100 (afterDeductions + 5) else afterDeductions
  let b2 := if has_specific_instructions text then min 100 (b1 + 5) else b1
  let b3 := if contains_role_pattern text then min 100 (b2 + 5) else b2
  max 0 (min 100 b3)

/-- C1: for every text and every issue list, the implemented scoring function
computes exactly the claim's description: start at 100, deduct 20 per
critical, 10 per medium and 5 per other issue (unbounded below before
clamping), then apply the three +5 bonuses capping the running total at 100
after each, and clamp the result to [0, 100]. -/
theorem c1_score_refines_spec (text : String) (issues : List PromptIssue) :
    calculate_quality_score text issues = scoreSpec text issues := by
  simp only [calculate_quality_score, scoreSpec, foldl_deduction]

/-- C6: for every text, the quality score with an empty issue list is 100;
the bonuses never push the result above 100. -/
theorem c6_score_of_no_issues (text : String) :
    calculate_quality_score text [] = 100 := by
  simp only [calculate_quality_score, List.foldl_nil]
  split_ifs <;> decide

/-- A bonus step `base = min(100, base + 5) if cond else base` is monotone in
the incoming score. -/
theorem bonusStep_mono (c : Prop) [Decidable c] {x y : Int} (h : x ≤ y) :
    (if c then min 100 (x + 5) else x) ≤ if c then min 100 (y + 5) else y := by
  split_ifs
  · exact min_le_min (le_refl _) (by omega)
  · exact h

/-- C10: appending any issue to the issue list can only lower (or keep) the
quality score, for every text and list. -/
theorem c10_score_monotone (text : String) (issues : List PromptIssue)
    (extra : PromptIssue) :
    calculate_quality_score text (issues ++ [extra]) ≤
      calculate_quality_score text issues := by
  simp only [calculate_quality_score, List.foldl_append, List.foldl_cons, List.foldl_nil]
  have h0 : List.foldl (fun s i => s - severityDeduction i.severity) 100 issues
        - severityDeduction extra.severity
      ≤ List.foldl (fun s i => s - severityDeduction i.severity) 100 issues := by
    have hpos : (0 : Int) < severityDeduction extra.severity := by
      cases extra.severity <;> decide
    omega
  exact max_le_max (le_refl 0)
    (min_le_min (le_refl 100)
      (bonusStep_mono _ (bonusStep_mono _ (bonusStep_mono _ h0))))

/-- The medium-severity rule issue of the C4 scenario, span (10, 14). -/
def c4Medium : PromptIssue :=
  { id := "issue-1", start := 10, endPos := 14, type := .vague, severity := .medium,
    message := "m", suggestion := "s", impact := none }

/-- The critical-severity external issue of the C4 scenario, span (12, 15). -/
def c4Critical : PromptIssue :=
  { id := "llm-1", start := 12, endPos := 15, type := .vague, severity := .critical,
    message := "m", suggestion := "s", impact := none }

/-- C4, counterexample: the spans (10, 14) and (12, 15) do NOT share a
5-character bucket (their keys are (10, 10) and (10, 15)), so fusion keeps
both issues; the medium one is not dropped. -/
theorem c4_counterexample :
    bucketKey c4Medium ≠ bucketKey c4Critical ∧
      fuse [c4Medium] [c4Critical] = [c4Medium, c4Critical] := by
  constructor
  · decide
  · rfl

/-- C4, amended: for any two issues with spans (10, 14) and (12, 15), one
medium and one critical, fusion places them in distinct buckets and the fused
result keeps both, ordered by start. -/
theorem c4_amended (id1 id2 m1 m2 s1 s2 : String) (t1 t2 : IssueType)
    (imp1 imp2 : Option Impact) :
    fuse [{ id := id1, start := 10, endPos := 14, type := t1, severity := .medium,
            message := m1, suggestion := s1, impact := imp1 }]
         [{ id := id2, start := 12, endPos := 15, type := t2, severity := .critical,
            message := m2, suggestion := s2, impact := imp2 }]
      = [{ id := id1, start := 10, endPos := 14, type := t1, severity := .medium,
           message := m1, suggestion := s1, impact := imp1 },
         { id := id2, start := 12, endPos := 15, type := t2, severity := .critical,
           message := m2, suggestion := s2, impact := imp2 }] := by
  simp [fuse, dedupIssues, addToGroups, bucketKey, pickBest, byStart,
    List.insertionSort, List.orderedInsert]

/-- C5, counterexample: the heuristic issues of "analyze data" are one vague
(medium), one missing_role (medium) and one too_short (critical), so the
quality score is 100 - 10 - 10 - 20 = 60, which is not strictly less
than 50. -/
theorem c5_counterexample :
    ¬ (calculate_quality_score "analyze data"
        (analyze specTokenizer "analyze data") < 50) := by
  decide

/-- C5, amended: heuristic analysis of "analyze data" yields at least one
vague issue of medium severity and at least one missing_role issue of medium
severity, and the quality score of the full heuristic issue list is exactly
60 (in particular below 70, but not below 50). -/
theorem c5_amended :
    (∃ i ∈ analyze specTokenizer "analyze data",
        i.type = IssueType.vague ∧ i.severity = Severity.medium) ∧
    (∃ i ∈ analyze specTokenizer "analyze data",
        i.type = IssueType.missing_role ∧ i.severity = Severity.medium) ∧
    calculate_quality_score "analyze data" (analyze specTokenizer "analyze data") = 60 := by
  refine ⟨?_, ?_, ?_⟩ <;> decide

/-- C8: whenever the tokenizer fails (returns none, modelling an exception),
the ambiguous-pronoun check emits no issue and analyze returns exactly the
concatenated issues of the five other checks; no failure escapes. -/
theorem c8_tokenizer_failure_skips_pronoun_check
    (tokenize : String → Option (List Token)) (text : String)
    (h : tokenize text = none) :
    analyze tokenize text =
      check_vague_instructions text ++ check_role_definition text ++
        check_output_format text ++ check_length text ++ check_specificity text ∧
    check_ambiguous_pronouns tokenize text = [] := by
  have hamb : check_ambiguous_pronouns tokenize text = [] := by
    unfold check_ambiguous_pronouns
    rw [h]
  refine ⟨?_, hamb⟩
  unfold analyze
  rw [hamb]
  simp

/-- A tokenizer that always fails, for the C8 witness. -/
def failingTokenizer : String → Option (List Token) :=
  fun _ => none

/-- C8, witness: instantiated at the always-failing tokenizer and the text
"analyze data". -/
theorem c8_witness :
    failingTokenizer "analyze data" = none ∧
    (analyze failingTokenizer "analyze data" =
      check_vague_instructions "analyze data" ++ check_role_definition "analyze data" ++
        check_output_format "analyze data" ++ check_length "analyze data" ++
        check_specificity "analyze data" ∧
    check_ambiguous_pronouns failingTokenizer "analyze data" = []) :=
  ⟨rfl, c8_tokenizer_failure_skips_pronoun_check failingTokenizer "analyze data" rfl⟩

/-- Dropping a while-prefix never lengthens a list. -/
theorem length_dropWhile_le {a : Type} (p : a → Bool) (l : List a) :
    (l.dropWhile p).length ≤ l.length := by
  induction l with
  | nil => simp
  | cons c t ih =>
    by_cases h : p c
    · simp only [List.dropWhile_cons, if_pos h, List.length_cons]
      omega
    · simp [List.dropWhile_cons, if_neg h]

/-- The stripped length of a string is at most its length. -/
theorem pyStrip_length_le (s : String) : (pyStrip s).length ≤ s.length := by
  show (((s.data.dropWhile pyIsSpace).reverse.dropWhile pyIsSpace).reverse).length ≤ s.data.length
  rw [List.length_reverse]
  calc ((s.data.dropWhile pyIsSpace).reverse.dropWhile pyIsSpace).length
      ≤ (s.data.dropWhile pyIsSpace).reverse.length := length_dropWhile_le _ _
    _ = (s.data.dropWhile pyIsSpace).length := List.length_reverse _
    _ ≤ s.data.length := length_dropWhile_le _ _

/-- C9, counterexample: the request text "  abc  " is not whitespace-only
after trimming, is 7 characters long (not shorter than 5, not longer than
5000), yet the boundary rejects it, because the minimum-length check runs on
the trimmed text ("abc", 3 characters). -/
theorem c9_counterexample :
    serverAcceptText "  abc  " = none ∧
      pyStrip "  abc  " ≠ "" ∧
      ¬ (("  abc  " : String).length < 5) ∧
      ¬ (("  abc  " : String).length > 5000) := by
  refine ⟨rfl, ?_, by decide, by decide⟩
  decide

/-- C9, amended: a request text is rejected exactly when its trimmed form is
shorter than 5 characters (which subsumes empty and whitespace-only text) or
its untrimmed form is longer than 5000 characters; otherwise it is accepted
with surrounding whitespace trimmed. -/
theorem c9_amended (text : String) :
    serverAcceptText text =
      if (pyStrip text).length < 5 ∨ text.length > 5000 then none
      else some (pyStrip text) := by
  have hS := pyStrip_length_le text
  unfold serverAcceptText analysisRequestText min_prompt_length max_prompt_length
  by_cases h1 : text.length < 1
  · rw [if_pos h1, if_pos (by omega : (pyStrip text).length < 5 ∨ text.length > 5000)]
  · rw [if_neg h1]
    by_cases h2 : text.length > 5000
    · rw [if_pos h2, if_pos (Or.inr h2)]
    · rw [if_neg h2]
      by_cases h3 : (pyStrip text).length = 0
      · rw [if_pos h3, if_pos (Or.inl (by omega))]
      · rw [if_neg h3]
        show (if (pyStrip text).length > 5000 then none
          else if (pyStrip text).length < 5 then none else some (pyStrip text)) = _
        rw [if_neg (by omega)]
        by_cases h4 : (pyStrip text).length < 5
        · rw [if_pos h4, if_pos (Or.inl h4)]
        · rw [if_neg h4, if_neg (by omega)]

/-- Well-formedness of the position groups built by _deduplicate_issues: every
group is nonempty and contains only issues of its own bucket key, and the
group keys are pairwise distinct. -/
def GroupsWF (gs : List ((Nat × Nat) × List PromptIssue)) : Prop :=
  (∀ kv ∈ gs, kv.2 ≠ [] ∧ ∀ i ∈ kv.2, bucketKey i = kv.1) ∧ (gs.map Prod.fst).Nodup

theorem groupsWF_nil : GroupsWF [] :=
  ⟨by simp, by simp⟩

/-- Group keys are unchanged when an issue is filed into an existing group. -/
theorem map_fst_update (gs : List ((Nat × Nat) × List PromptIssue)) (i : PromptIssue) :
    (gs.map (fun kv => if kv.1 = bucketKey i then (kv.1, kv.2 ++ [i]) else kv)).map Prod.fst
      = gs.map Prod.fst := by
  rw [List.map_map]
  apply List.map_congr_left
  intro kv _
  by_cases h : kv.1 = bucketKey i <;> simp [h]

/-- Adding one issue preserves well-formedness of the groups. -/
theorem groupsWF_add (gs : List ((Nat × Nat) × List PromptIssue)) (i : PromptIssue)
    (h : GroupsWF gs) : GroupsWF (addToGroups gs i) := by
  obtain ⟨h1, h2⟩ := h
  unfold addToGroups
  split_ifs with hmem
  · constructor
    · intro kv hkv
      obtain ⟨kv0, hkv0, rfl⟩ := List.mem_map.mp hkv
      by_cases hk : kv0.1 = bucketKey i
      · rw [if_pos hk]
        refine ⟨by simp, ?_⟩
        intro j hj
        rcases List.mem_append.mp hj with hj | hj
        · exact (h1 kv0 hkv0).2 j hj
        · simp only [List.mem_singleton] at hj
          subst hj
          exact hk.symm
      · rw [if_neg hk]
        exact h1 kv0 hkv0
    · rw [map_fst_update]
      exact h2
  · constructor
    · intro kv hkv
      rcases List.mem_append.mp hkv with hkv | hkv
      · exact h1 kv hkv
      · simp only [List.mem_singleton] at hkv
        subst hkv
        exact ⟨by simp, by simp⟩
    · rw [List.map_append]
      simp only [List.map_cons, List.map_nil]
      rw [List.nodup_append]
      refine ⟨h2, List.nodup_singleton _, ?_⟩
      intro k hk hcontra
      simp only [List.mem_singleton] at hcontra
      subst hcontra
      obtain ⟨kv, hkv, hfst⟩ := List.mem_map.mp hk
      exact hmem (List.any_eq_true.mpr ⟨kv, hkv, decide_eq_true hfst⟩)

/-- The fold that builds the position groups yields well-formed groups. -/
theorem buildGroups_wf (l : List PromptIssue) : GroupsWF (l.foldl addToGroups []) := by
  suffices h : ∀ gs, GroupsWF gs → GroupsWF (l.foldl addToGroups gs) from h [] groupsWF_nil
  induction l with
  | nil => exact fun gs hgs => hgs
  | cons i t ih => exact fun gs hgs => ih (addToGroups gs i) (groupsWF_add gs i hgs)

/-- The replace-if-strictly-greater fold of `max` stays within its inputs. -/
theorem pickFold_mem (t : List PromptIssue) (b : PromptIssue) :
    t.foldl (fun best x => if pairGt (dedupRank x) (dedupRank best) then x else best) b
      ∈ b :: t := by
  induction t generalizing b with
  | nil => simp
  | cons x xs ih =>
    simp only [List.foldl_cons]
    have h := ih (if pairGt (dedupRank x) (dedupRank b) then x else b)
    by_cases hc : pairGt (dedupRank x) (dedupRank b)
    · rw [if_pos hc] at h ⊢
      exact List.mem_cons_of_mem b h
    · rw [if_neg hc] at h ⊢
      rcases List.mem_cons.mp h with h | h
      · rw [h]
        exact List.mem_cons_self _ _
      · exact List.mem_cons_of_mem _ (List.mem_cons_of_mem _ h)

/-- The winner of a group is a member of the group. -/
theorem pickBest_mem : ∀ {l : List PromptIssue} {w : PromptIssue},
    pickBest l = some w → w ∈ l
  | [], _, h => by simp [pickBest] at h
  | [i], w, h => by
    simp only [pickBest, Option.some.injEq] at h
    simp [← h]
  | a :: b :: t, w, h => by
    simp only [pickBest, Option.some.injEq] at h
    rw [← h]
    exact pickFold_mem (b :: t) a

/-- Every winner carries the key of its own group. -/
theorem winners_key {gs : List ((Nat × Nat) × List PromptIssue)} (hwf : GroupsWF gs)
    {w : PromptIssue} (hw : w ∈ gs.filterMap (fun kv => pickBest kv.2)) :
    bucketKey w ∈ gs.map Prod.fst := by
  obtain ⟨kv, hkv, hpick⟩ := List.mem_filterMap.mp hw
  have hkey := (hwf.1 kv hkv).2 w (pickBest_mem hpick)
  rw [hkey]
  exact List.mem_map_of_mem Prod.fst hkv

/-- The winners of well-formed groups have pairwise distinct bucket keys. -/
theorem winners_pairwise {gs : List ((Nat × Nat) × List PromptIssue)} (hwf : GroupsWF gs) :
    (gs.filterMap (fun kv => pickBest kv.2)).Pairwise
      (fun a b => bucketKey a ≠ bucketKey b) := by
  induction gs with
  | nil => simp
  | cons kv rest ih =>
    have h2 := hwf.2
    simp only [List.map_cons] at h2
    have hcons := List.nodup_cons.mp h2
    have hwf' : GroupsWF rest :=
      ⟨fun x hx => hwf.1 x (List.mem_cons_of_mem _ hx), hcons.2⟩
    rw [List.filterMap_cons]
    cases hpick : pickBest kv.2 with
    | none => exact ih hwf'
    | some w =>
      refine List.Pairwise.cons ?_ (ih hwf')
      intro b hb
      have hkb := winners_key hwf' hb
      have hkw : bucketKey w = kv.1 :=
        (hwf.1 kv (List.mem_cons_self _ _)).2 w (pickBest_mem hpick)
      rw [hkw]
      intro heq
      exact hcons.1 (heq ▸ hkb)

/-- The deduplicated list is sorted ascending by start. -/
theorem dedup_sorted (l : List PromptIssue) : (dedupIssues l).Sorted byStart := by
  unfold dedupIssues
  split_ifs
  · exact List.sorted_nil
  · exact List.sorted_insertionSort byStart _

/-- No two issues of the deduplicated list share a bucket key. -/
theorem dedup_keys_pairwise (l : List PromptIssue) :
    (dedupIssues l).Pairwise (fun a b => bucketKey a ≠ bucketKey b) := by
  unfold dedupIssues
  split_ifs
  · simp
  · exact ((List.perm_insertionSort byStart _).pairwise_iff
      (fun h heq => h heq.symm)).mpr (winners_pairwise (buildGroups_wf l))

/-- When every incoming issue has a fresh key (relative to the accumulator and
to each other), the group-building fold only appends singleton groups. -/
theorem foldl_addToGroups_fresh :
    ∀ (l : List PromptIssue) (acc : List ((Nat × Nat) × List PromptIssue)),
      l.Pairwise (fun a b => bucketKey a ≠ bucketKey b) →
      (∀ i ∈ l, bucketKey i ∉ acc.map Prod.fst) →
      l.foldl addToGroups acc = acc ++ l.map (fun i => (bucketKey i, [i]))
  | [], acc, _, _ => by simp
  | i :: t, acc, hpw, hfresh => by
    have hstep : addToGroups acc i = acc ++ [(bucketKey i, [i])] := by
      unfold addToGroups
      rw [if_neg ?hne]
      case hne =>
        intro hany
        obtain ⟨kv, hkv, hdec⟩ := List.any_eq_true.mp hany
        exact hfresh i (List.mem_cons_self _ _)
          (of_decide_eq_true hdec ▸ List.mem_map_of_mem Prod.fst hkv)
    rw [List.foldl_cons, hstep,
      foldl_addToGroups_fresh t (acc ++ [(bucketKey i, [i])]) hpw.of_cons ?_]
    · simp
    · intro j hj hmem
      rw [List.map_append] at hmem
      rcases List.mem_append.mp hmem with h | h
      · exact hfresh j (List.mem_cons_of_mem _ hj) h
      · simp only [List.map_cons, List.map_nil, List.mem_singleton] at h
        exact List.rel_of_pairwise_cons hpw hj h.symm

/-- On an issue list with pairwise distinct bucket keys, deduplication only
sorts: every group is a singleton and every issue survives. -/
theorem dedup_of_distinct {l : List PromptIssue}
    (h : l.Pairwise (fun a b => bucketKey a ≠ bucketKey b)) :
    dedupIssues l = List.insertionSort byStart l := by
  unfold dedupIssues
  split_ifs with hemp
  · rw [List.isEmpty_iff] at hemp
    rw [hemp]
    rfl
  · rw [foldl_addToGroups_fresh l [] h (by simp), List.nil_append, List.filterMap_map]
    congr 1
    have hcomp : ((fun kv : (Nat × Nat) × List PromptIssue => pickBest kv.2) ∘
        fun i => (bucketKey i, [i])) = fun i => some i := funext fun i => rfl
    rw [hcomp]
    exact List.filterMap_eq_map id ▸ List.map_id _

/-- C2: for every pair of input issue lists, the fused output is sorted
ascending by start and no two output issues share a bucket key. -/
theorem c2_fusion_sorted_and_bucket_distinct (A B : List PromptIssue) :
    List.Sorted byStart (fuse A B) ∧
      (fuse A B).Pairwise (fun a b => bucketKey a ≠ bucketKey b) :=
  ⟨dedup_sorted (A ++ B), dedup_keys_pairwise (A ++ B)⟩

/-- C7: fusion is idempotent; re-fusing an already-fused list against nothing
returns it unchanged. -/
theorem c7_fusion_idempotent (A B : List PromptIssue) :
    fuse (fuse A B) [] = fuse A B := by
  show dedupIssues (dedupIssues (A ++ B) ++ []) = dedupIssues (A ++ B)
  rw [List.append_nil, dedup_of_distinct (dedup_keys_pairwise (A ++ B))]
  exact (dedup_sorted (A ++ B)).insertionSort_eq

/-- A missing_role-style rule issue at span (0, 0), for the C3 counterexample. -/
def c3RoleIssue : PromptIssue :=
  { id := "issue-a", start := 0, endPos := 0, type := .missing_role, severity := .medium,
    message := "m", suggestion := "s", impact := none }

/-- A too_short-style rule issue at span (0, 2), for the C3 counterexample;
it shares the bucket (0, 0) with c3RoleIssue. -/
def c3ShortIssue : PromptIssue :=
  { id := "issue-b", start := 0, endPos := 2, type := .too_short, severity := .critical,
    message := "m", suggestion := "s", impact := none }

/-- C3, counterexample: fusing a two-issue rule list with an empty external
list applies dedup bucketing across the single source: the two rule issues
share bucket (0, 0), so only the critical one survives, and the result is not
the rule list sorted by start. -/
theorem c3_counterexample :
    fuse [c3RoleIssue, c3ShortIssue] [] = [c3ShortIssue] ∧
      fuse [c3RoleIssue, c3ShortIssue] [] ≠
        List.insertionSort byStart [c3RoleIssue, c3ShortIssue] := by
  exact ⟨rfl, by decide⟩

/-- C3, amended: when no two rule issues share a bucket key, fusing with an
empty external list returns exactly the rule issues stably sorted ascending by
start: a permutation of the input, no issue dropped, added or replaced.  (In
general the bucket dedup does run across the single source and can drop
issues, as the counterexample shows.) -/
theorem c3_amended (A : List PromptIssue)
    (h : A.Pairwise (fun a b => bucketKey a ≠ bucketKey b)) :
    fuse A [] = List.insertionSort byStart A ∧
      (fuse A []).Perm A ∧ List.Sorted byStart (fuse A []) := by
  have he : fuse A [] = List.insertionSort byStart A := by
    show dedupIssues (A ++ []) = _
    rw [List.append_nil]
    exact dedup_of_distinct h
  refine ⟨he, ?_, ?_⟩
  · rw [he]
    exact List.perm_insertionSort byStart A
  · rw [he]
    exact List.sorted_insertionSort byStart A

/-- A vague-style rule issue at span (10, 12), for the C3 witness. -/
def c3LateIssue : PromptIssue :=
  { id := "issue-c", start := 10, endPos := 12, type := .vague, severity := .medium,
    message := "m", suggestion := "s", impact := none }

/-- C3, witness: the amended statement applied to a concrete two-issue rule
list with distinct buckets, given out of start order. -/
theorem c3_witness :
    ([c3LateIssue, c3RoleIssue].Pairwise (fun a b => bucketKey a ≠ bucketKey b)) ∧
      (fuse [c3LateIssue, c3RoleIssue] [] =
          List.insertionSort byStart [c3LateIssue, c3RoleIssue] ∧
        (fuse [c3LateIssue, c3RoleIssue] []).Perm [c3LateIssue, c3RoleIssue] ∧
        List.Sorted byStart (fuse [c3LateIssue, c3RoleIssue] [])) :=
  have hp : [c3LateIssue, c3RoleIssue].Pairwise (fun a b => bucketKey a ≠ bucketKey b) :=
    List.pairwise_pair.mpr (by decide)
  ⟨hp, c3_amended [c3LateIssue, c3RoleIssue] hp⟩

end PromptQuality
